import Mathlib

/-!
Verification of the go-feature repository (feature flag registry with an
HTTP admin adapter) against its specification.

The development shallowly embeds the final revision of `feature.go`
(the revision with `RatioFlag`, `SettableFlag`, form-body handling and
HTML rendering).  Go `float64` values are embedded as rationals (`ℚ`);
the random draw of `math/rand.Float64` appearing in
`RatioFlag.IsEnabled` is embedded as an explicit parameter ranging over
`[0, 1)`.  Mutation of flags through pointers held by the registry map
is embedded as explicit state passing: operations return the updated
registry / flag alongside their result.
-/

namespace GoFeature

/-- Go: `unicode.IsSpace` restricted to the code points `strings.TrimSpace`
strips for the inputs of interest (ASCII whitespace plus NEL and NBSP). -/
def isGoSpace (c : Char) : Bool :=
  c == ' ' || c == '\t' || c == '\n' || c == '\r' ||
  c.toNat == 11 || c.toNat == 12 || c.toNat == 0x85 || c.toNat == 0xA0

/-- Go: `strings.TrimSpace`. -/
def trimSpace (s : String) : String :=
  String.mk (((s.toList.dropWhile isGoSpace).reverse.dropWhile isGoSpace).reverse)

/-- Go: `strconv.ParseBool`.  Accepts exactly the listed literals. -/
def parseBool (s : String) : Option Bool :=
  if s = "1" ∨ s = "t" ∨ s = "T" ∨ s = "TRUE" ∨ s = "true" ∨ s = "True" then some true
  else if s = "0" ∨ s = "f" ∨ s = "F" ∨ s = "FALSE" ∨ s = "false" ∨ s = "False" then
    some false
  else none

/-- Value of a list of decimal digit characters. -/
def digitsToNat (l : List Char) : Nat :=
  l.foldl (fun a c => a * 10 + (c.toNat - 48)) 0

/-- Go: `strconv.ParseFloat(s, 64)` on finite decimal literals
(optional sign, digits with optional fraction, optional decimal
exponent), embedded exactly into `ℚ`.  The hexadecimal, `Inf` and `NaN`
forms of `ParseFloat` are outside the rational embedding and rejected. -/
def parseFloat (s : String) : Option ℚ :=
  match s.toList with
  | [] => none
  | c0 :: t0 =>
    let cs := c0 :: t0
    let (sg, cs) : ℚ × List Char :=
      match cs with
      | '+' :: t => (1, t)
      | '-' :: t => (-1, t)
      | t => (1, t)
    let ip := cs.takeWhile Char.isDigit
    let cs := cs.dropWhile Char.isDigit
    let (fp, cs) : List Char × List Char :=
      match cs with
      | '.' :: t => (t.takeWhile Char.isDigit, t.dropWhile Char.isDigit)
      | t => ([], t)
    if ip.isEmpty && fp.isEmpty then none
    else
      let mant : ℚ := (digitsToNat ip : ℚ) + (digitsToNat fp : ℚ) / (10 ^ fp.length)
      match cs with
      | [] => some (sg * mant)
      | e :: t =>
        if e == 'e' || e == 'E' then
          let (epos, t) : Bool × List Char :=
            match t with
            | '+' :: t2 => (true, t2)
            | '-' :: t2 => (false, t2)
            | t2 => (true, t2)
          let ed := t.takeWhile Char.isDigit
          let rest := t.dropWhile Char.isDigit
          if ed.isEmpty || !rest.isEmpty then none
          else if epos then some (sg * mant * 10 ^ digitsToNat ed)
          else some (sg * mant / 10 ^ digitsToNat ed)
        else none

/-- Left-pad with a leading zero, for two-digit decimal fraction parts. -/
def natPad2 (n : Nat) : String :=
  if n < 10 then "0" ++ toString n else toString n

/-- Go: `fmt.Sprintf("%.2f", x)` on the rational embedding of `x`
(rounding half away from zero; the binary float never hits a decimal
tie for the values this repository manipulates). -/
def formatFloat2 (q : ℚ) : String :=
  let sgn := if q < 0 then "-" else ""
  let a := if q < 0 then -q else q
  let c := (Rat.floor (a * 100 + 1 / 2)).toNat
  sgn ++ toString (c / 100) ++ "." ++ natPad2 (c % 100)

/-- Go: `fmt.Sprintf("%.0f", x)` on the rational embedding of `x`. -/
def formatFloat0 (q : ℚ) : String :=
  let sgn := if q < 0 then "-" else ""
  let a := if q < 0 then -q else q
  sgn ++ toString (Rat.floor (a + 1 / 2)).toNat

/-- Drop trailing `'0'` characters of a decimal fraction. -/
def stripZeros (l : List Char) : List Char :=
  (l.reverse.dropWhile (· == '0')).reverse

/-- Go: `%v` of a `float64` (shortest `'g'` form) on the rational
embedding.  Finite doubles always have a terminating decimal expansion,
found here by searching for a power of ten clearing the denominator;
the `'g'` switch to exponent notation for extreme magnitudes is not
modelled (the repository renders ratios in `[0, 1]`). -/
def formatFloatG (q : ℚ) : String :=
  let sgn := if q < 0 then "-" else ""
  let a := if q < 0 then -q else q
  match (List.range 400).find? (fun k => (a * 10 ^ k).den == 1) with
  | some k =>
    let m := (a * 10 ^ k).num.toNat
    let ip := m / 10 ^ k
    let fp := m % 10 ^ k
    if fp == 0 then sgn ++ toString ip
    else
      let fpStr := toString fp
      let pad := String.mk (List.replicate (k - fpStr.length) '0')
      sgn ++ toString ip ++ "." ++ String.mk (stripZeros (pad ++ fpStr).toList)
  | none => sgn ++ toString a.num.natAbs ++ "/" ++ toString a.den

/-- Embedding of the package's flag values.  `BooleanFlag` carries a
name and an enabled bit; `RatioFlag` embeds a `BooleanFlag` (flattened
here) and adds a `float64` ratio, embedded as `ℚ`. -/
inductive Flag where
  | boolean (name : String) (enabled : Bool)
  | ratio (name : String) (enabled : Bool) (ratio : ℚ)
  deriving DecidableEq

/-- Go: `Flag.Name()` (the `name` field, immutable). -/
def Flag.name : Flag → String
  | .boolean n _ => n
  | .ratio n _ _ => n

/-- The stored `enabled` field of either flag variant. -/
def Flag.enabledState : Flag → Bool
  | .boolean _ e => e
  | .ratio _ e _ => e

/-- Go: `NewBooleanFlag(name)` — enabled starts out false. -/
def NewBooleanFlag (name : String) : Flag :=
  .boolean name false

/-- Go: `NewRatioFlag(name, ratio)` — enabled starts out false. -/
def NewRatioFlag (name : String) (r : ℚ) : Flag :=
  .ratio name false r

/-- Go: `Flag.Set(enabled)` — overwrite the `enabled` field. -/
def Flag.set : Flag → Bool → Flag
  | .boolean n _, b => .boolean n b
  | .ratio n _ r, b => .ratio n b r

/-- Go: `RatioFlag.SetRatio(r)`.  Only the ratio variant has this
method; on the boolean variant it is unreachable and modelled as the
identity. -/
def Flag.setRatio : Flag → ℚ → Flag
  | .boolean n e, _ => .boolean n e
  | .ratio n e _, r => .ratio n e r

/-- Go: `Flag.IsEnabled()`.  For `BooleanFlag` the stored bit; for
`RatioFlag`, `enabled && rand.Float64() < ratio` where the fresh random
sample of that invocation is the explicit `draw` parameter. -/
def Flag.IsEnabled (f : Flag) (draw : ℚ) : Bool :=
  match f with
  | .boolean _ e => e
  | .ratio _ e r => e && decide (draw < r)

/-- Go: `%v` of a bool. -/
def boolStr (b : Bool) : String :=
  if b then "true" else "false"

/-- Go: `RatioFlag.String()` — `fmt.Sprintf("%s: %v (ratio=%.2f)", ...)`. -/
def ratioString (n : String) (e : Bool) (r : ℚ) : String :=
  n ++ ": " ++ boolStr e ++ " (ratio=" ++ formatFloat2 r ++ ")"

/-- The body chunk the admin handler writes for one flag: the
`fmt.Stringer` case (`RatioFlag.String()`) when available, else the
`"%s: %v"` fallback on the path-derived name and `IsEnabled()`
(deterministic for the boolean variant). -/
def Flag.display (f : Flag) (nm : String) : String :=
  match f with
  | .ratio n e r => ratioString n e r
  | .boolean _ e => nm ++ ": " ++ boolStr e

/-- Go: `url.Values` (only the `Get`/`Set` operations the code uses;
`Get` returns the first value for the key, or `""`). -/
abbrev Values := List (String × String)

/-- Go: `url.Values.Get`. -/
def Values.get : Values → String → String
  | [], _ => ""
  | p :: t, k => if p.1 = k then p.2 else Values.get t k

/-- Go: `url.Values.Set` — replace all values for the key by one. -/
def Values.set (vs : Values) (k v : String) : Values :=
  (k, v) :: vs.filter (fun p => !(p.1 == k))

/-- Go: the `Set` struct (named `FSet` here to avoid clashing with
`Set` of the ambient library): a map from name to flag, embedded as an
association list with first-match lookup. -/
structure FSet where
  flags : List (String × Flag)
  deriving DecidableEq

/-- First-match association lookup, the embedding of a Go map read. -/
def lookupFlag : List (String × Flag) → String → Option Flag
  | [], _ => none
  | p :: t, n => if p.1 = n then some p.2 else lookupFlag t n

/-- Go: `Set.Get(name)` — `nil` becomes `none`. -/
def FSet.Get (fs : FSet) (n : String) : Option Flag :=
  lookupFlag fs.flags n

/-- Go: `Set.Add(f)`.  Returns the `error` (as `Option String`)
together with the resulting registry state (unchanged on duplicate). -/
def FSet.Add (fs : FSet) (f : Flag) : Option String × FSet :=
  if (lookupFlag fs.flags f.name).isSome then
    (some ("duplicate feature \x22" ++ f.name ++ "\x22"), fs)
  else
    (none, ⟨fs.flags ++ [(f.name, f)]⟩)

/-- Go: `Set.NewFlag(name)` — construct a boolean flag, attempt `Add`,
return the flag in either case. -/
def FSet.NewFlag (fs : FSet) (n : String) : Flag × Option String × FSet :=
  let f := NewBooleanFlag n
  let r := fs.Add f
  (f, r.1, r.2)

/-- In-place mutation of the flag a registry entry points to: replace
the value stored under the key. -/
def updateFlags (l : List (String × Flag)) (n : String) (f : Flag) :
    List (String × Flag) :=
  l.map fun p => if p.1 = n then (n, f) else p

/-- Registry state after the flag registered under `n` is mutated. -/
def FSet.update (fs : FSet) (n : String) (f : Flag) : FSet :=
  ⟨updateFlags fs.flags n f⟩

/-- Go: `SettableFlag.SetFrom(url.Values)`.  Both package flag types
implement it.  Returns the `error` (as `Option String`) and the flag's
resulting state — on the ratio variant an `enabled` mutation already
applied survives a later `ratio` parse failure. -/
def Flag.SetFrom (f : Flag) (vals : Values) : Option String × Flag :=
  match f with
  | .boolean _ _ =>
    let enabledRaw := vals.get "enabled"
    if trimSpace enabledRaw = "" then
      (some "missing \x27enabled\x27 parameter", f)
    else
      match parseBool enabledRaw with
      | none => (some "invalid parameter", f)
      | some b => (none, f.set b)
  | .ratio _ _ _ =>
    let enabledRaw := vals.get "enabled"
    let afterEnabled : Option String × Flag :=
      if trimSpace enabledRaw = "" then (none, f)
      else
        match parseBool enabledRaw with
        | none => (some ("invalid parameter \x22" ++ enabledRaw ++ "\x22"), f)
        | some b => (none, f.set b)
    match afterEnabled with
    | (some e, f1) => (some e, f1)
    | (none, f1) =>
      let ratioRaw := vals.get "ratio"
      if trimSpace ratioRaw = "" then (none, f1)
      else
        match parseFloat ratioRaw with
        | none => (some ("invalid parameter \x22" ++ ratioRaw ++ "\x22"), f1)
        | some r => (none, f1.setRatio r)

/-- Embedding of the inbound `http.Request` fields the adapter reads.
`bodyForm` is the parsed URL-encoded body; `none` models a body
`ParseForm` fails on.  Header fields are the values of
`Header.Get(...)`, `""` when absent. -/
structure Request where
  method : String
  path : String
  query : Values
  contentType : String
  referer : String
  accept : String
  bodyForm : Option Values
  deriving DecidableEq

/-- Embedding of the `http.ResponseWriter`: header map, the sequence
of `WriteHeader` calls (only the first takes effect on the wire, as in
`net/http`; later calls are recorded but superfluous), and the body. -/
structure RespWriter where
  headers : Values
  statusWrites : List Nat
  body : String
  deriving DecidableEq

/-- The fresh writer handed to a handler. -/
def RespWriter.empty : RespWriter :=
  ⟨[], [], ""⟩

/-- Go: `w.Header().Set(k, v)`. -/
def RespWriter.headerSet (w : RespWriter) (k v : String) : RespWriter :=
  { w with headers := Values.set w.headers k v }

/-- Go: `w.WriteHeader(c)` — appended to the record; the first entry
is the wire status. -/
def RespWriter.writeHeader (w : RespWriter) (c : Nat) : RespWriter :=
  { w with statusWrites := w.statusWrites ++ [c] }

/-- Go: writing body bytes; an implicit `WriteHeader(200)` happens on
the first write. -/
def RespWriter.write (w : RespWriter) (s : String) : RespWriter :=
  if w.statusWrites.isEmpty then
    { w with statusWrites := [200], body := w.body ++ s }
  else
    { w with body := w.body ++ s }

/-- The status code on the wire (`httptest` recorder semantics: the
first `WriteHeader`, or 200). -/
def RespWriter.code (w : RespWriter) : Nat :=
  w.statusWrites.headD 200

/-- Go: `http.Error(w, msg, code)` — sets the plain-text headers,
writes the status, writes the message with a newline. -/
def httpError (w : RespWriter) (msg : String) (c : Nat) : RespWriter :=
  (((w.headerSet "Content-Type" "text/plain; charset=utf-8").headerSet
      "X-Content-Type-Options" "nosniff").writeHeader c).write (msg ++ "\n")

/-- The media type of a `Content-Type` header value: the part before
any `;` parameters, trimmed (Go reaches this through
`mime.ParseMediaType` inside `ParseForm`). -/
def contentTypeBase (ct : String) : String :=
  trimSpace (String.mk (ct.toList.takeWhile (fun c => !(c == ';'))))

/-- Go: `req.ParseForm()` for a POST: parse the URL-encoded body when
the content type says so (an unparsable body is the error case), then
append the URL query values, so body values take precedence in `Get`.
For other content types the form is the query alone. -/
def Request.parseForm (req : Request) : Option Values :=
  if req.method = "POST" ∧
      contentTypeBase req.contentType = "application/x-www-form-urlencoded" then
    match req.bodyForm with
    | none => none
    | some pf => some (pf ++ req.query)
  else
    some req.query

/-- The checkbox-omission refinement in `Set.handleFlag`: a blank or
absent `enabled` on a request whose `Content-Type` header is exactly
`application/x-www-form-urlencoded` is rewritten to `enabled=false`. -/
def effectiveForm (req : Request) (form0 : Values) : Values :=
  if trimSpace (form0.get "enabled") = "" ∧
      req.contentType = "application/x-www-form-urlencoded" then
    form0.set "enabled" "false"
  else
    form0

/-- Go: `Set.handleFlag(w, req, name)`.  Both package flag variants
implement `SettableFlag`, so the `SettableFlag` case of the type
switch is the one taken on POST (the legacy `ParseBool` default branch
is unreachable for them).  Returns the registry (the flag mutated in
place through its pointer) and the response. -/
def FSet.handleFlag (fs : FSet) (req : Request) (name : String) :
    FSet × RespWriter :=
  let w := RespWriter.empty
  match fs.Get name with
  | none => (fs, httpError w "no such feature" 404)
  | some flag =>
    if req.method = "GET" then
      (fs, w.write (flag.display name))
    else if req.method = "POST" then
      match req.parseForm with
      | none => (fs, httpError w "invalid parameters" 400)
      | some form0 =>
        let form := effectiveForm req form0
        match flag.SetFrom form with
        | (err, flag1) =>
          let w1 := match err with
            | some _ => httpError w "invalid parameters" 400
            | none => w
          let w2 :=
            if req.referer = "" then w1
            else (w1.headerSet "Location" req.referer).writeHeader 307
          (fs.update name flag1, w2.write (flag1.display name))
    else
      (fs, httpError w "Method Not Allowed" 405)

/-- Go: `strings.Contains` — some suffix of `s` starts with `sub`. -/
def containsSubstrAux (sub : List Char) : List Char → Bool
  | [] => sub.isEmpty
  | c :: t => sub.isPrefixOf (c :: t) || containsSubstrAux sub t

/-- Go: `strings.Contains`. -/
def containsSubstr (s sub : String) : Bool :=
  containsSubstrAux sub.toList s.toList

/-- Go: html/template escaping of interpolated values (text and
attribute contexts; the URL context of the `action` attribute escapes
a superset and coincides on the names this repository uses). -/
def escapeHTMLChar (c : Char) : String :=
  if c == '&' then "&amp;"
  else if c == '<' then "&lt;"
  else if c == '>' then "&gt;"
  else if c == '\x22' then "&#34;"
  else if c.toNat == 39 then "&#39;"
  else String.mk [c]

/-- Escape a whole interpolated string. -/
def escapeHTML (s : String) : String :=
  String.join (s.toList.map escapeHTMLChar)

/-- Go: `BooleanFlag.RenderHTML` — `booleanTmpl` executed on the
flag's name and enabled bit. -/
def renderBooleanHTML (n : String) (e : Bool) : String :=
  "\n<form id=\x22feature-" ++ escapeHTML n ++
  "\x22 class=\x22feature\x22 method=\x22POST\x22 action=\x22./" ++ escapeHTML n ++
  "\x22 autocomplete=\x22off\x22>\n\t" ++ escapeHTML n ++
  "\n\t<input name=\x22enabled\x22 type=\x22checkbox\x22 value=\x22true\x22 " ++
  (if e then "checked" else "") ++
  " />\n\n\t<input type=\x22submit\x22 value=\x22Apply!\x22 />\n</form>"

/-- Go: `RatioFlag.RenderHTML` — `ratioTmpl` executed on name,
enabled, ratio and the percent form of the ratio. -/
def renderRatioHTML (n : String) (e : Bool) (r : ℚ) : String :=
  "\n<form id=\x22feature-" ++ escapeHTML n ++
  "\x22 class=\x22feature\x22 method=\x22POST\x22 action=\x22./" ++ escapeHTML n ++
  "\x22 autocomplete=\x22off\x22 oninput=\x22ratio_value.value = Math.round(parseFloat(ratio.value)*100) + \x27%\x27\x22>\n\t" ++
  escapeHTML n ++
  "\n\t<input name=\x22enabled\x22 type=\x22checkbox\x22 value=\x22true\x22" ++
  (if e then " checked" else "") ++
  " />\n\t<input name=\x22ratio\x22 type=\x22range\x22 min=\x220.0\x22 max=\x221.0\x22 step=\x220.01\x22 value=\x22" ++
  formatFloatG r ++
  "\x22 />\n\t<output name=\x22ratio_value\x22>" ++ formatFloat0 (r * 100) ++
  "%</output>\n\n\t<input type=\x22submit\x22 value=\x22Apply!\x22 />\n</form>"

/-- One plain-text index line: the `fmt.Stringer` case for the ratio
variant, the `"%s: %v"` fallback for the boolean one. -/
def Flag.textLine (f : Flag) : String :=
  match f with
  | .ratio n e r => ratioString n e r ++ "\n"
  | .boolean n e => n ++ ": " ++ boolStr e ++ "\n"

/-- One HTML index item: both variants implement `RenderableFlag`. -/
def Flag.htmlItem (f : Flag) : String :=
  "<li>" ++
  (match f with
   | .boolean n e => renderBooleanHTML n e
   | .ratio n e r => renderRatioHTML n e r) ++
  "\n</li>\n\n"

/-- Go: insertion into already-sorted output, realising the
`sort.Sort(flagsByName(flags))` contract (`Less` compares names). -/
def insertByName (f : Flag) : List Flag → List Flag
  | [] => [f]
  | g :: t => if g.name < f.name then g :: insertByName f t else f :: g :: t

/-- The name-sorted flag list `handleIndex` iterates in both output
modes. -/
def sortFlagsByName (l : List Flag) : List Flag :=
  l.foldr insertByName []

/-- The registry's flags, collected from the map and name-sorted as in
`handleIndex`. -/
def FSet.sortedFlags (fs : FSet) : List Flag :=
  sortFlagsByName (fs.flags.map Prod.snd)

/-- The constant prologue of the HTML index page. -/
def htmlHeader : String :=
  "<!doctype html>\n<html>\n\t<head>\n\t\t<meta charset=\x22utf-8\x22 />\n\t\t<title>Flags</title>\n\t</head>\n\n\t<body>\n\t\t<ul>\n"

/-- The constant epilogue of the HTML index page. -/
def htmlFooter : String :=
  "\n\t\t</ul>\n\t</body>\n</html>"

/-- Go: `Set.handleIndex(w, req)` — collect, sort by name, then render
either the HTML page (when the `Accept` header contains `html`) or the
plain-text listing. -/
def FSet.handleIndex (fs : FSet) (req : Request) : RespWriter :=
  let flags := fs.sortedFlags
  if containsSubstr req.accept "html" then
    RespWriter.empty.write
      (htmlHeader ++ String.join (flags.map Flag.htmlItem) ++ htmlFooter)
  else
    RespWriter.empty.write
      ("Flags:\n\n" ++ String.join (flags.map Flag.textLine))

/-- Go: `strings.LastIndex(s, "/")`. -/
def lastSlashIndex (s : String) : Option Nat :=
  (s.toList.reverse.findIdx? (· == '/')).map (fun i => s.toList.length - 1 - i)

/-- Go: `Set.ServeHTTP` — route to the index for a path without a
slash or ending in one, else to the per-flag handler on the trailing
segment. -/
def FSet.ServeHTTP (fs : FSet) (req : Request) : FSet × RespWriter :=
  match lastSlashIndex req.path with
  | none => (fs, fs.handleIndex req)
  | some i =>
    if i = req.path.toList.length - 1 then
      (fs, fs.handleIndex req)
    else
      fs.handleFlag req (String.mk (req.path.toList.drop (i + 1)))

/-- C1: a registry holds at most one flag per name — `Add` of a flag
whose name is already present returns the duplicate-name error, leaves
the registry unchanged, and `Get` afterwards still returns the flag
added first. -/
theorem c1_add_duplicate_rejected (fs : FSet) (n : String) (f1 f2 : Flag)
    (hget : fs.Get n = some f1) (hname : f2.name = n) :
    (fs.Add f2).1.isSome = true ∧ (fs.Add f2).2 = fs ∧
    (fs.Add f2).2.Get n = some f1 := by
  have hl : lookupFlag fs.flags f2.name = some f1 := by rw [hname]; exact hget
  simp [FSet.Add, hl, hget]

/-- Witness for C1 at a concrete registry and duplicate flag. -/
theorem c1_witness :
    ((FSet.mk [("a", Flag.boolean "a" false)]).Add (Flag.boolean "a" true)).1.isSome = true ∧
    ((FSet.mk [("a", Flag.boolean "a" false)]).Add (Flag.boolean "a" true)).2 =
      FSet.mk [("a", Flag.boolean "a" false)] ∧
    ((FSet.mk [("a", Flag.boolean "a" false)]).Add (Flag.boolean "a" true)).2.Get "a" =
      some (Flag.boolean "a" false) :=
  c1_add_duplicate_rejected _ "a" _ _ rfl rfl

/-- C2: on each read of a ratio flag with a fresh draw in `[0, 1)`,
`IsEnabled` is `enabled AND (draw < ratio)`; with ratio 0 or
enabled=false it is always false, and with ratio 1 and enabled=true it
is always true. -/
theorem c2_ratio_isEnabled_gate (n : String) (e : Bool) (r draw : ℚ)
    (h0 : 0 ≤ draw) (h1 : draw < 1) :
    ((Flag.ratio n e r).IsEnabled draw = true ↔ e = true ∧ draw < r) ∧
    (Flag.ratio n e 0).IsEnabled draw = false ∧
    (Flag.ratio n false r).IsEnabled draw = false ∧
    (e = true → (Flag.ratio n e 1).IsEnabled draw = true) := by
  have hn0 : ¬ draw < 0 := not_lt.mpr h0
  refine ⟨?_, ?_, ?_, ?_⟩
  · simp [Flag.IsEnabled]
  · simp [Flag.IsEnabled, hn0]
  · simp [Flag.IsEnabled]
  · intro he; simp [Flag.IsEnabled, he, h1]

/-- Witness for C2 at draw 0. -/
theorem c2_witness :
    (((Flag.ratio "x" true 1).IsEnabled 0 = true ↔ true = true ∧ (0 : ℚ) < 1) ∧
     (Flag.ratio "x" true 0).IsEnabled 0 = false ∧
     (Flag.ratio "x" false 1).IsEnabled 0 = false ∧
     (true = true → (Flag.ratio "x" true 1).IsEnabled 0 = true)) :=
  c2_ratio_isEnabled_gate "x" true 1 0 (by norm_num) (by norm_num)

/-- C3: `RatioFlag.SetFrom` applies `enabled` first and `ratio`
second; when `enabled` parses and is applied but `ratio` then fails to
parse, the call returns an error while the `enabled` mutation stays
applied — no rollback. -/
theorem c3_ratio_setFrom_no_rollback (n : String) (e b : Bool) (r : ℚ) (vals : Values)
    (h1 : trimSpace (vals.get "enabled") ≠ "")
    (h2 : parseBool (vals.get "enabled") = some b)
    (h3 : trimSpace (vals.get "ratio") ≠ "")
    (h4 : parseFloat (vals.get "ratio") = none) :
    ((Flag.ratio n e r).SetFrom vals).1.isSome = true ∧
    ((Flag.ratio n e r).SetFrom vals).2 = Flag.ratio n b r := by
  simp [Flag.SetFrom, h1, h2, h3, h4, Flag.set]

/-- Witness for C3: `enabled=true` applies, `ratio=0.2oops` fails. -/
theorem c3_witness :
    ((Flag.ratio "test" false 0).SetFrom
        [("enabled", "true"), ("ratio", "0.2oops")]).1.isSome = true ∧
    ((Flag.ratio "test" false 0).SetFrom
        [("enabled", "true"), ("ratio", "0.2oops")]).2 = Flag.ratio "test" true 0 :=
  c3_ratio_setFrom_no_rollback "test" false true 0 _
    (by decide) (by decide) (by decide) (by decide)

/-- C7: `RatioFlag.SetFrom` with a `ratio` value but no (or a blank)
`enabled` field leaves the enabled state (and the name) exactly as it
was — a missing `enabled` is a per-field no-op, not a default to
false. -/
theorem c7_ratio_only_preserves_enabled (n : String) (e : Bool) (r : ℚ) (vals : Values)
    (hen : trimSpace (vals.get "enabled") = "")
    (hra : trimSpace (vals.get "ratio") ≠ "") :
    ((Flag.ratio n e r).SetFrom vals).2.enabledState = e ∧
    ((Flag.ratio n e r).SetFrom vals).2.name = n := by
  cases hpf : parseFloat (vals.get "ratio") with
  | none => simp [Flag.SetFrom, hen, hra, hpf, Flag.enabledState, Flag.name]
  | some r' =>
    simp [Flag.SetFrom, hen, hra, hpf, Flag.setRatio, Flag.enabledState, Flag.name]

/-- Witness for C7 with only `ratio=0.5` present. -/
theorem c7_witness :
    ((Flag.ratio "test" true 0).SetFrom [("ratio", "0.5")]).2.enabledState = true ∧
    ((Flag.ratio "test" true 0).SetFrom [("ratio", "0.5")]).2.name = "test" :=
  c7_ratio_only_preserves_enabled "test" true 0 _ (by decide) (by decide)

/-- C9: a fresh boolean flag reads false; after `Set(true)` reads are
true until `Set(false)`; reads are pure in the state, so repeated
reads with no intervening `Set` agree. -/
theorem c9_boolean_flag_lifecycle (n m : String) (e : Bool) (d d' : ℚ) :
    (NewBooleanFlag n).IsEnabled d = false ∧
    ((NewBooleanFlag n).set true).IsEnabled d = true ∧
    (((NewBooleanFlag n).set true).set false).IsEnabled d = false ∧
    (Flag.boolean m e).IsEnabled d = (Flag.boolean m e).IsEnabled d' :=
  ⟨rfl, rfl, rfl, rfl⟩

/-! Helper lemmas about registry lookup and in-place update. -/

/-- Updating a key that is not present changes nothing. -/
theorem updateFlags_of_not_mem (l : List (String × Flag)) (n : String) (f : Flag)
    (h : n ∉ l.map Prod.fst) : updateFlags l n f = l := by
  induction l with
  | nil => rfl
  | cons p t ih =>
    have h1 : p.1 ≠ n := by
      intro hh
      exact h (by simp [hh])
    have h2 : n ∉ t.map Prod.fst := fun hm => h (by simp [hm])
    have hstep : updateFlags (p :: t) n f = p :: updateFlags t n f := by
      simp [updateFlags, h1]
    rw [hstep, ih h2]

/-- Writing back the value already stored under a key (unique in the
registry) is a no-op. -/
theorem updateFlags_self (l : List (String × Flag)) (n : String) (f : Flag)
    (hnd : (l.map Prod.fst).Nodup) (hl : lookupFlag l n = some f) :
    updateFlags l n f = l := by
  induction l with
  | nil => simp [lookupFlag] at hl
  | cons p t ih =>
    obtain ⟨a, b⟩ := p
    rw [List.map_cons, List.nodup_cons] at hnd
    obtain ⟨hp, ht⟩ := hnd
    by_cases hk : a = n
    · subst hk
      rw [lookupFlag, if_pos rfl] at hl
      injection hl with hf
      subst hf
      have hstep : updateFlags ((a, b) :: t) a b = (a, b) :: updateFlags t a b := by
        simp [updateFlags]
      rw [hstep, updateFlags_of_not_mem t a b hp]
    · rw [lookupFlag, if_neg hk] at hl
      have hstep : updateFlags ((a, b) :: t) n f = (a, b) :: updateFlags t n f := by
        simp [updateFlags, hk]
      rw [hstep, ih ht hl]

/-- After an in-place mutation, lookup of the key sees the new flag. -/
theorem lookupFlag_update (l : List (String × Flag)) (n : String) (f g : Flag)
    (hl : lookupFlag l n = some f) :
    lookupFlag (updateFlags l n g) n = some g := by
  induction l with
  | nil => simp [lookupFlag] at hl
  | cons p t ih =>
    obtain ⟨a, b⟩ := p
    by_cases hk : a = n
    · subst hk
      simp [updateFlags, lookupFlag]
    · rw [lookupFlag, if_neg hk] at hl
      have hstep : updateFlags ((a, b) :: t) n g = (a, b) :: updateFlags t n g := by
        simp [updateFlags, hk]
      rw [hstep]
      show (if a = n then some b else lookupFlag (updateFlags t n g) n) = some g
      rw [if_neg hk]
      exact ih hl

/-- `Get` after `Set.set`: the first value wins. -/
theorem values_get_set_self (vs : Values) (k v : String) :
    (vs.set k v).get k = v := by
  simp [Values.set, Values.get]

/-- Both flag variants reject `enabled=tru` in `SetFrom` without
touching their state. -/
theorem setFrom_tru (f : Flag) :
    ∃ m, f.SetFrom [("enabled", "tru")] = (some m, f) := by
  cases f with
  | boolean n e => exact ⟨_, rfl⟩
  | ratio n e r => exact ⟨_, rfl⟩

/-- C5: a POST update whose query carries only the malformed
`enabled=tru` gets status 400 and leaves the registry — hence the
flag's enabled state and ratio — exactly as before, for either flag
variant. -/
theorem c5_malformed_enabled_400_unchanged (fs : FSet) (n : String)
    (f : Flag) (req : Request)
    (hnd : (fs.flags.map Prod.fst).Nodup) (hget : fs.Get n = some f)
    (hm : req.method = "POST") (hq : req.query = [("enabled", "tru")])
    (hct : req.contentType = "") (_hb : req.bodyForm = none) :
    ((fs.handleFlag req n).2.code = 400) ∧ ((fs.handleFlag req n).1 = fs) := by
  obtain ⟨m, hsf⟩ := setFrom_tru f
  have hupd : fs.update n f = fs := by
    obtain ⟨l⟩ := fs
    simp only [FSet.Get] at hget
    simp only [FSet.update, FSet.mk.injEq]
    exact updateFlags_self l n f hnd hget
  have hct2 : contentTypeBase req.contentType ≠
      "application/x-www-form-urlencoded" := by rw [hct]; decide
  have hpf : req.parseForm = some [("enabled", "tru")] := by
    simp [Request.parseForm, hct2, hq]
  have htru : trimSpace (Values.get [("enabled", "tru")] "enabled") ≠ "" := by
    decide
  have heff : effectiveForm req [("enabled", "tru")] = [("enabled", "tru")] := by
    simp [effectiveForm, htru]
  by_cases hr : req.referer = "" <;>
    simp [FSet.handleFlag, hget, hm, hpf, heff, hsf, hupd, hr, httpError,
      RespWriter.write, RespWriter.writeHeader, RespWriter.headerSet,
      RespWriter.empty, RespWriter.code]

/-- Witness for C5 on a concrete one-flag registry. -/
theorem c5_witness :
    (((FSet.mk [("t", Flag.boolean "t" true)]).handleFlag
        ⟨"POST", "/t", [("enabled", "tru")], "", "", "", none⟩ "t").2.code = 400) ∧
    (((FSet.mk [("t", Flag.boolean "t" true)]).handleFlag
        ⟨"POST", "/t", [("enabled", "tru")], "", "", "", none⟩ "t").1 =
      FSet.mk [("t", Flag.boolean "t" true)]) :=
  c5_malformed_enabled_400_unchanged _ "t" _ _ (by decide) rfl rfl rfl rfl rfl

/-- The boolean variant's `SetFrom` on a form whose `enabled` value is
the literal `false`. -/
theorem boolean_setFrom_false (bn : String) (e : Bool) (vals : Values)
    (hg : vals.get "enabled" = "false") :
    (Flag.boolean bn e).SetFrom vals = (none, Flag.boolean bn false) := by
  have ht : trimSpace "false" = "false" := rfl
  simp [Flag.SetFrom, hg, ht, parseBool, Flag.set]

/-- C4 counterexample: the claim promises status 200 for every
form-encoded POST without an `enabled` field, but a request carrying a
`Referer` header is answered with a 307 temporary redirect (the
enabled state still becomes false). -/
theorem c4_counterexample :
    ((FSet.mk [("test", Flag.boolean "test" true)]).handleFlag
        ⟨"POST", "/test", [], "application/x-www-form-urlencoded", "http://admin/",
          "", some []⟩ "test").2.code = 307 ∧
    ¬ (((FSet.mk [("test", Flag.boolean "test" true)]).handleFlag
        ⟨"POST", "/test", [], "application/x-www-form-urlencoded", "http://admin/",
          "", some []⟩ "test").2.code = 200) ∧
    ((FSet.mk [("test", Flag.boolean "test" true)]).handleFlag
        ⟨"POST", "/test", [], "application/x-www-form-urlencoded", "http://admin/",
          "", some []⟩ "test").1.Get "test" = some (Flag.boolean "test" false) := by
  decide

/-- C4 as amended: a form-encoded POST on a registered boolean flag
with no (or a blank) `enabled` parameter is treated as
`enabled=false`; the response status is 200 when the request carries
no `Referer` header, and a 307 temporary redirect when it does. -/
theorem c4_form_checkbox_omission (fs : FSet) (n bn : String) (e : Bool)
    (req : Request) (bf : Values)
    (hget : fs.Get n = some (Flag.boolean bn e))
    (hm : req.method = "POST")
    (hct : req.contentType = "application/x-www-form-urlencoded")
    (hbody : req.bodyForm = some bf)
    (hen : trimSpace ((bf ++ req.query).get "enabled") = "") :
    ((fs.handleFlag req n).1.Get n = some (Flag.boolean bn false)) ∧
    ((fs.handleFlag req n).2.code = if req.referer = "" then 200 else 307) := by
  have hctb : contentTypeBase req.contentType =
      "application/x-www-form-urlencoded" := by rw [hct]; decide
  have hpf : req.parseForm = some (bf ++ req.query) := by
    simp [Request.parseForm, hm, hctb, hbody]
  have heff : effectiveForm req (bf ++ req.query) =
      (bf ++ req.query).set "enabled" "false" := by
    simp [effectiveForm, hen, hct]
  have hsf : (Flag.boolean bn e).SetFrom ((bf ++ req.query).set "enabled" "false") =
      (none, Flag.boolean bn false) :=
    boolean_setFrom_false bn e _ (values_get_set_self _ _ _)
  have hlu : (fs.update n (Flag.boolean bn false)).Get n =
      some (Flag.boolean bn false) := by
    simp only [FSet.Get] at hget
    exact lookupFlag_update _ _ _ _ hget
  by_cases hr : req.referer = "" <;>
    simp [FSet.handleFlag, hget, hm, hpf, heff, hsf, hlu, hr, httpError,
      RespWriter.write, RespWriter.writeHeader, RespWriter.headerSet,
      RespWriter.empty, RespWriter.code]

/-- Witness for the amended C4 on a concrete registry and request. -/
theorem c4_witness :
    ((FSet.mk [("test", Flag.boolean "test" true)]).handleFlag
        ⟨"POST", "/test", [], "application/x-www-form-urlencoded", "", "",
          some []⟩ "test").1.Get "test" = some (Flag.boolean "test" false) ∧
    ((FSet.mk [("test", Flag.boolean "test" true)]).handleFlag
        ⟨"POST", "/test", [], "application/x-www-form-urlencoded", "", "",
          some []⟩ "test").2.code = 200 := by
  have h := c4_form_checkbox_omission
    (FSet.mk [("test", Flag.boolean "test" true)]) "test" "test" true
    ⟨"POST", "/test", [], "application/x-www-form-urlencoded", "", "", some []⟩
    [] rfl rfl rfl rfl (by decide)
  exact ⟨h.1, by simpa using h.2⟩

/-- C6 counterexample: the claim demands 405 for non-GET/POST methods
on the index endpoint too, but the index handler never inspects the
method — a DELETE of the index path is served the listing with
status 200. -/
theorem c6_counterexample :
    ((FSet.mk []).ServeHTTP ⟨"DELETE", "/", [], "", "", "", none⟩).2.code = 200 ∧
    ¬ (((FSet.mk []).ServeHTTP ⟨"DELETE", "/", [], "", "", "",
        none⟩).2.code = 405) := by
  decide

/-- C6 as amended: a request whose method is neither GET nor POST gets
405 on the per-flag endpoint (for a registered flag), while the index
endpoint ignores the method and answers 200 with the listing. -/
theorem c6_method_not_allowed :
    (∀ (fs : FSet) (req : Request) (n : String) (f : Flag),
        req.method ≠ "GET" → req.method ≠ "POST" → fs.Get n = some f →
        (fs.handleFlag req n).2.code = 405) ∧
    (∀ (fs : FSet) (req : Request), (fs.handleIndex req).code = 200) := by
  constructor
  · intro fs req n f hg hp hget
    simp [FSet.handleFlag, hget, hg, hp, httpError, RespWriter.write,
      RespWriter.writeHeader, RespWriter.headerSet, RespWriter.empty,
      RespWriter.code]
  · intro fs req
    by_cases h : containsSubstr req.accept "html" = true <;>
      simp [FSet.handleIndex, h, RespWriter.write, RespWriter.empty,
        RespWriter.code]

/-- Witness for the amended C6: DELETE on a flag gives 405; PUT on the
index gives 200. -/
theorem c6_witness :
    ((FSet.mk [("x", Flag.boolean "x" false)]).handleFlag
        ⟨"DELETE", "/x", [], "", "", "", none⟩ "x").2.code = 405 ∧
    ((FSet.mk []).handleIndex ⟨"PUT", "/", [], "", "", "", none⟩).code = 200 :=
  ⟨c6_method_not_allowed.1 _ _ "x" (Flag.boolean "x" false)
      (by decide) (by decide) rfl,
    c6_method_not_allowed.2 _ _⟩

/-- C10: when `SetFrom` fails on a POST, the handler reports 400 but
continues: the registry still receives the (possibly partially)
mutated flag, the flag's current string form is appended to the body
after the error message, and a non-empty `Referer` still gets a
`Location` header and a (superfluous) temporary-redirect status
write. -/
theorem c10_error_path_continues (fs : FSet) (n : String) (f f1 : Flag)
    (req : Request) (form0 : Values) (msg : String)
    (hget : fs.Get n = some f)
    (hm : req.method = "POST")
    (hpf : req.parseForm = some form0)
    (hsf : f.SetFrom (effectiveForm req form0) = (some msg, f1)) :
    ((fs.handleFlag req n).2.code = 400) ∧
    ((fs.handleFlag req n).2.body = "invalid parameters\n" ++ f1.display n) ∧
    ((fs.handleFlag req n).1 = fs.update n f1) ∧
    (req.referer ≠ "" →
      (fs.handleFlag req n).2.headers.get "Location" = req.referer ∧
      307 ∈ (fs.handleFlag req n).2.statusWrites) := by
  by_cases hr : req.referer = "" <;>
    simp [FSet.handleFlag, hget, hm, hpf, hsf, hr, httpError,
      RespWriter.write, RespWriter.writeHeader, RespWriter.headerSet,
      RespWriter.empty, RespWriter.code, Values.set, Values.get]

/-- Witness for C10: failed update with a Referer present. -/
theorem c10_witness :
    (((FSet.mk [("b", Flag.boolean "b" true)]).handleFlag
        ⟨"POST", "/b", [("enabled", "zzz")], "", "http://r/", "", none⟩
        "b").2.code = 400) ∧
    (((FSet.mk [("b", Flag.boolean "b" true)]).handleFlag
        ⟨"POST", "/b", [("enabled", "zzz")], "", "http://r/", "", none⟩
        "b").2.headers.get "Location" = "http://r/") := by
  have h := c10_error_path_continues (FSet.mk [("b", Flag.boolean "b" true)])
    "b" (Flag.boolean "b" true) (Flag.boolean "b" true)
    ⟨"POST", "/b", [("enabled", "zzz")], "", "http://r/", "", none⟩
    [("enabled", "zzz")] "invalid parameter" rfl rfl rfl (by decide)
  exact ⟨h.1, (h.2.2.2 (by decide)).1⟩

/-! Helper lemmas for the sortedness of the index listing. -/

/-- Inserting preserves the multiset of flags. -/
theorem insertByName_perm (f : Flag) (l : List Flag) :
    List.Perm (insertByName f l) (f :: l) := by
  induction l with
  | nil => exact List.Perm.refl _
  | cons g t ih =>
    rw [insertByName]
    by_cases h : g.name < f.name
    · rw [if_pos h]
      exact (List.Perm.cons g ih).trans (List.Perm.swap f g t)
    · rw [if_neg h]

/-- Inserting preserves name-sortedness. -/
theorem insertByName_pairwise (f : Flag) (l : List Flag)
    (h : l.Pairwise (fun a b => a.name ≤ b.name)) :
    (insertByName f l).Pairwise (fun a b => a.name ≤ b.name) := by
  induction l with
  | nil => simp [insertByName]
  | cons g t ih =>
    rw [List.pairwise_cons] at h
    obtain ⟨hg, ht⟩ := h
    rw [insertByName]
    by_cases hlt : g.name < f.name
    · rw [if_pos hlt]
      rw [List.pairwise_cons]
      refine ⟨?_, ih ht⟩
      intro x hx
      rcases List.mem_cons.mp ((insertByName_perm f t).mem_iff.mp hx) with hx | hx
      · subst hx; exact le_of_lt hlt
      · exact hg x hx
    · rw [if_neg hlt]
      have hfg : f.name ≤ g.name := not_lt.mp hlt
      rw [List.pairwise_cons]
      refine ⟨?_, by rw [List.pairwise_cons]; exact ⟨hg, ht⟩⟩
      intro x hx
      rcases List.mem_cons.mp hx with hx | hx
      · subst hx; exact hfg
      · exact hfg.trans (hg x hx)

/-- The sort is a permutation of its input. -/
theorem sortFlagsByName_perm (l : List Flag) :
    List.Perm (sortFlagsByName l) l := by
  induction l with
  | nil => exact List.Perm.refl _
  | cons f t ih =>
    exact (insertByName_perm f (sortFlagsByName t)).trans (List.Perm.cons f ih)

/-- The sort's output is name-sorted. -/
theorem sortFlagsByName_pairwise (l : List Flag) :
    (sortFlagsByName l).Pairwise (fun a b => a.name ≤ b.name) := by
  induction l with
  | nil => simp [sortFlagsByName]
  | cons f t ih => exact insertByName_pairwise f (sortFlagsByName t) ih

/-- With pairwise-distinct names, name-sortedness is strict. -/
theorem pairwise_lt_of_nodup (l : List Flag)
    (hs : l.Pairwise (fun a b => a.name ≤ b.name))
    (hnd : (l.map Flag.name).Nodup) :
    l.Pairwise (fun a b => a.name < b.name) := by
  have hne : l.Pairwise (fun a b => a.name ≠ b.name) := List.pairwise_map.mp hnd
  exact (hs.and hne).imp fun h => lt_of_le_of_ne h.1 h.2

/-- C8: the list the index listing enumerates (in both the plain-text
and the HTML mode, which map over `FSet.sortedFlags`) is in strictly
ascending lexicographic name order, and is the same for any
registration order of the same flags. -/
theorem c8_index_sorted (fs fsp : FSet)
    (hnd : ((fs.flags.map Prod.snd).map Flag.name).Nodup)
    (hperm : (fsp.flags.map Prod.snd).Perm (fs.flags.map Prod.snd)) :
    ((fs.sortedFlags.map Flag.name).Pairwise (· < ·)) ∧
    fsp.sortedFlags = fs.sortedFlags := by
  simp only [FSet.sortedFlags]
  have hSperm := sortFlagsByName_perm (fs.flags.map Prod.snd)
  have hndS : ((sortFlagsByName (fs.flags.map Prod.snd)).map Flag.name).Nodup :=
    ((hSperm.map Flag.name).nodup_iff).mpr hnd
  have hltS := pairwise_lt_of_nodup _
    (sortFlagsByName_pairwise (fs.flags.map Prod.snd)) hndS
  have hndM : ((fsp.flags.map Prod.snd).map Flag.name).Nodup :=
    ((hperm.map Flag.name).nodup_iff).mpr hnd
  have hndSM : ((sortFlagsByName (fsp.flags.map Prod.snd)).map Flag.name).Nodup :=
    (((sortFlagsByName_perm (fsp.flags.map Prod.snd)).map Flag.name).nodup_iff).mpr hndM
  have hltM := pairwise_lt_of_nodup _
    (sortFlagsByName_pairwise (fsp.flags.map Prod.snd)) hndSM
  have hp2 : List.Perm (sortFlagsByName (fsp.flags.map Prod.snd))
      (sortFlagsByName (fs.flags.map Prod.snd)) :=
    (sortFlagsByName_perm _).trans (hperm.trans hSperm.symm)
  constructor
  · exact List.pairwise_map.mpr hltS
  · haveI : IsAntisymm Flag (fun a b => a.name < b.name) :=
      ⟨fun a b h1 h2 => absurd h2 (lt_asymm h1)⟩
    exact List.eq_of_perm_of_sorted hp2 hltM hltS

/-- Witness for C8 on the spec's "b" then "a" registration order. -/
theorem c8_witness :
    (((FSet.mk [("b", Flag.boolean "b" false),
        ("a", Flag.boolean "a" true)]).sortedFlags.map Flag.name).Pairwise
      (· < ·)) ∧
    (FSet.mk [("a", Flag.boolean "a" true),
        ("b", Flag.boolean "b" false)]).sortedFlags =
      (FSet.mk [("b", Flag.boolean "b" false),
        ("a", Flag.boolean "a" true)]).sortedFlags :=
  c8_index_sorted _ _ (by decide) (by decide)

end GoFeature
